import Mathlib

/-!
Verification of the CSV-to-JSON transformation layer of the patent-landscape
dashboard.  The definitions below are a shallow embedding of the route
handlers' pure data transformations: a parsed CSV row is an ordered list of
(header, field) pairs, JavaScript objects are ordered association lists, and
the JavaScript numeric helpers (`parseInt`, truthiness, `||` defaulting) are
modelled explicitly.  CSV parsing with `columns: true` yields rows whose keys
are pairwise distinct; the embedding notes the places where that matters.
-/

set_option maxHeartbeats 1000000
set_option maxRecDepth 8000

namespace PatSpec

/-- The single-quote character (written by code point to keep sources tidy). -/
def quoteChar : Char := Char.ofNat 39

def isWs (c : Char) : Bool := c.isWhitespace

/-- Character-level version of JavaScript `String.prototype.trim`. -/
def trimChars (cs : List Char) : List Char :=
  ((cs.dropWhile isWs).reverse.dropWhile isWs).reverse

def trimStr (s : String) : String := (trimChars s.data).asString

/-- JavaScript `toLowerCase` restricted to the ASCII data these routes see. -/
def lowerStr (s : String) : String := (s.data.map Char.toLower).asString

/-- JavaScript `toUpperCase` restricted to the ASCII data these routes see. -/
def upperStr (s : String) : String := (s.data.map Char.toUpper).asString

/-- A parsed CSV record: the ordered (header, field) pairs produced by
`csv-parse` with `columns: true`. -/
abbrev Row := List (String × String)

/-- JavaScript property read `row[k]` on a parsed record. -/
def lookup (row : Row) (k : String) : Option String :=
  (row.find? (fun p => p.1 == k)).map (fun p => p.2)

/-- JavaScript `a || b` on possibly-undefined strings (empty string is falsy). -/
def jsOr (a b : Option String) : Option String :=
  match a with
  | some s => if s == "" then b else some s
  | none => b

def digitsVal (ds : List Char) : Nat :=
  ds.foldl (fun n c => n * 10 + (c.toNat - 48)) 0

def parseDigits (cs : List Char) : Option Nat :=
  let ds := cs.takeWhile Char.isDigit
  if ds.isEmpty then none else some (digitsVal ds)

/-- Core of JavaScript `parseInt(s, 10)`: optional sign, then the longest
digit run; `none` models `NaN`. -/
def jsParseIntChars : List Char → Option Int
  | [] => none
  | c :: rest =>
    if c == '-' then (parseDigits rest).map (fun n => -(n : Int))
    else if c == '+' then (parseDigits rest).map (fun n => (n : Int))
    else (parseDigits (c :: rest)).map (fun n => (n : Int))

/-- JavaScript `parseInt(s, 10)` (which skips leading whitespace). -/
def jsParseInt (s : String) : Option Int :=
  jsParseIntChars (s.data.dropWhile isWs)

/-- `parseNumber` from the classification route: strip commas and quotes,
trim, `parseInt`, and return 0 on falsy input or `NaN`. -/
def stripNumJunk (s : String) : String :=
  trimStr (s.data.filter (fun c => !(c == ',' || c == '"' || c == quoteChar))).asString

def parseNumber (v : Option String) : Int :=
  match v with
  | none => 0
  | some s => if s == "" then 0 else (jsParseInt (stripNumJunk s)).getD 0

def isQuoteChar (c : Char) : Bool := c == '"' || c == quoteChar

def dropLeadQuote : List Char → List Char
  | [] => []
  | c :: rest => if isQuoteChar c then rest else c :: rest

/-- Effect of the regex replace `/^["']|["']$/g`: one leading and one
trailing quote character are removed. -/
def stripEdgeQuotes (cs : List Char) : List Char :=
  (dropLeadQuote (dropLeadQuote cs).reverse).reverse

/-- `cleanOwnerName` from the classification route. -/
def cleanOwnerName (v : Option String) : String :=
  match v with
  | none => ""
  | some s => if s == "" then "" else trimStr (stripEdgeQuotes s.data).asString

/-- `cleanClassificationName` on a (header) string: de-quote, trim, and cut
the descriptive text after the first colon. -/
def cleanClassificationName (s : String) : String :=
  let cleaned := trimStr (stripEdgeQuotes s.data).asString
  if cleaned.data.contains ':' then
    (trimChars (cleaned.data.takeWhile (fun c => !(c == ':')))).asString
  else cleaned

/-- `cleanClassificationName` applied to a possibly-undefined row value. -/
def cleanClassificationNameOpt (v : Option String) : String :=
  match v with
  | none => ""
  | some s => if s == "" then "" else cleanClassificationName s

/-- Substring occurrence check (JavaScript `String.prototype.includes`). -/
def startsWithChars : List Char → List Char → Bool
  | [], _ => true
  | _ :: _, [] => false
  | a :: as, b :: bs => a == b && startsWithChars as bs

def hasSubChars (needle : List Char) : List Char → Bool
  | [] => needle.isEmpty
  | h :: rest => startsWithChars needle (h :: rest) || hasSubChars needle rest

def strIncludes (hay needle : String) : Bool := hasSubChars needle.data hay.data

/-- A JavaScript value stored in one of the dynamically shaped result
objects: either a string or a (parsed) number. -/
inductive JVal where
  | str : String → JVal
  | num : Int → JVal
deriving DecidableEq

/-- A JavaScript object as an ordered association list (property insertion
order, as `Object.keys`/`Object.entries` expose it). -/
abbrev Obj := List (String × JVal)

/-- JavaScript property assignment `m[k] = v`: overwrite in place if the key
exists, otherwise append. -/
def assocSet {β : Type} (m : List (String × β)) (k : String) (v : β) :
    List (String × β) :=
  if m.any (fun p => p.1 == k) then m.map (fun p => if p.1 == k then (k, v) else p)
  else m ++ [(k, v)]

def objGet (obj : Obj) (k : String) : Option JVal :=
  (obj.find? (fun p => p.1 == k)).map (fun p => p.2)

def jvalTruthy : JVal → Bool
  | .str s => !(s == "")
  | .num n => !(n == 0)

/-- JavaScript `v > 0`.  In these routes the `total` property only ever
holds numbers, so the string case is unreachable. -/
def jvalPos : JVal → Bool
  | .num n => decide (0 < n)
  | .str _ => false

/-- Stable insertion into a list sorted descending by `key` (matches the
stable JavaScript `sort((a, b) => key b - key a)`). -/
def insertDescBy {α : Type} (key : α → Int) (x : α) : List α → List α
  | [] => [x]
  | y :: ys => if key x < key y then y :: insertDescBy key x ys else x :: y :: ys

def sortDescBy {α : Type} (key : α → Int) : List α → List α
  | [] => []
  | x :: xs => insertDescBy key x (sortDescBy key xs)

/-- Stable insertion for the ascending comparator `(a, b) => key a - key b`. -/
def insertAscBy {α : Type} (key : α → Int) (x : α) : List α → List α
  | [] => [x]
  | y :: ys => if key y < key x then y :: insertAscBy key x ys else x :: y :: ys

def sortAscBy {α : Type} (key : α → Int) : List α → List α
  | [] => []
  | x :: xs => insertAscBy key x (sortAscBy key xs)

/-- The validity filter of `processOwnerClassification`: first cell truthy and
free of the `---` separator and repeated `Current Owner` header text. -/
def isValidOwnerRow (row : Row) : Bool :=
  match row.head? with
  | none => false
  | some p =>
    !(p.2 == "") && !(strIncludes p.2 "---") && !(strIncludes p.2 "Current Owner")

def validOwnerRecords (records : List Row) : List Row :=
  records.filter isValidOwnerRow

/-- `Object.keys(validRecords[0])`. -/
def ownerKeysOf (records : List Row) : List String :=
  match validOwnerRecords records with
  | [] => []
  | first :: _ => first.map (fun p => p.1)

/-- `row[keys[i]]` where `keys[i]` may be out of range (then `undefined`). -/
def lookupKeyAt (row : Row) (keys : List String) (i : Nat) : Option String :=
  match keys[i]? with
  | some k => lookup row k
  | none => none

def colTotal (validRecords : List Row) (k : String) : Int :=
  validRecords.foldl (fun s row => s + parseNumber (lookup row k)) 0

/-- Per-classification column sums (the `classificationTotals` object).  Rows
from `csv-parse` have pairwise distinct keys, so an insertion-ordered object
keyed by column is the same as mapping over the key list. -/
def classificationTotals (validRecords : List Row) (keys : List String) :
    List (String × Int) :=
  (keys.drop 2).map (fun k => (k, colTotal validRecords k))

def ownerClassPairs (records : List Row) : List (String × Int) :=
  classificationTotals (validOwnerRecords records) (ownerKeysOf records)

/-- The top `classLimit` classification columns by descending column sum. -/
def topClassificationKeys (records : List Row) (classLimit : Nat) : List String :=
  ((sortDescBy (fun p => p.2) (ownerClassPairs records)).take classLimit).map
    (fun p => p.1)

/-- One output record of `processOwnerClassification`: the base object with
`currentOwner` and `total`, then one property per selected classification. -/
def buildOwnerObj (keys topCls : List String) (row : Row) : Obj :=
  topCls.foldl
    (fun obj classKey =>
      let cleanKey := cleanClassificationName classKey
      if cleanKey == "" then obj
      else assocSet obj cleanKey (JVal.num (parseNumber (lookup row classKey))))
    [("currentOwner", JVal.str (cleanOwnerName (lookupKeyAt row keys 0))),
     ("total", JVal.num (parseNumber (lookupKeyAt row keys 1)))]

/-- The final `.filter(item => item.currentOwner && item.total > 0)`. -/
def keepOwnerObj (obj : Obj) : Bool :=
  (match objGet obj "currentOwner" with
   | some v => jvalTruthy v
   | none => false) &&
  (match objGet obj "total" with
   | some v => jvalPos v
   | none => false)

/-- `processOwnerClassification` from the classification route (the same code
appears inline for the `ipcByOwner`/`cpcByOwner` blocks of the duplicate
route with the literals 15 and 5). -/
def processOwnerClassification (records : List Row) (ownerLimit classLimit : Nat) :
    List Obj :=
  if records.isEmpty then []
  else if (validOwnerRecords records).isEmpty then []
  else
    (((validOwnerRecords records).take ownerLimit).map
        (buildOwnerObj (ownerKeysOf records) (topClassificationKeys records classLimit))).filter
      keepOwnerObj

/-- One row of `processFullClassification`. -/
structure ClassificationItem where
  classification : String
  total : Int
deriving DecidableEq

/-- `processFullClassification` from the classification route. -/
def processFullClassification (records : List Row) (limit : Nat) :
    List ClassificationItem :=
  ((records.take limit).map (fun row =>
      let keys := row.map (fun p => p.1)
      { classification := cleanClassificationNameOpt (lookupKeyAt row keys 0)
        total := parseNumber (lookupKeyAt row keys 1) })).filter
    (fun item => !(item.classification == "") && decide (0 < item.total))

def objYearNum (obj : Obj) : Int :=
  match objGet obj "year" with
  | some (.num n) => n
  | _ => 0

/-- One row of `processYearClassification`: `null` (here `none`) outside the
2010–2025 window, otherwise the `{ year }` object extended with one cleaned
property per remaining column. -/
def buildYearObj (row : Row) : Option Obj :=
  let keys := row.map (fun p => p.1)
  let year := parseNumber (lookupKeyAt row keys 0)
  if year < 2010 ∨ 2025 < year then none
  else
    some ((keys.drop 1).foldl
      (fun obj k =>
        let classKey := cleanClassificationName k
        if classKey == "" then obj
        else assocSet obj classKey (JVal.num (parseNumber (lookup row k))))
      [("year", JVal.num year)])

/-- `processYearClassification` from the classification route. -/
def processYearClassification (records : List Row) : List Obj :=
  if records.isEmpty then []
  else sortAscBy objYearNum (records.filterMap buildYearObj)

/-! ## Geographic route (version with ISO-3 lookup and Nordic padding) -/

/-- The `ISO_2_TO_ISO_3` static table. -/
def ISO_2_TO_ISO_3 : List (String × String) :=
  [("US", "USA"), ("GB", "GBR"), ("FR", "FRA"), ("DE", "DEU"), ("JP", "JPN"),
   ("CN", "CHN"), ("IN", "IND"), ("CA", "CAN"), ("AU", "AUS"), ("NO", "NOR"),
   ("SE", "SWE"), ("CH", "CHE"), ("NL", "NLD"), ("KR", "KOR"), ("BR", "BRA"),
   ("MX", "MEX"), ("RU", "RUS"), ("ES", "ESP"), ("IT", "ITA"), ("BE", "BEL"),
   ("SG", "SGP"), ("HK", "HKG"), ("TW", "TWN"), ("IL", "ISR"), ("IE", "IRL"),
   ("DK", "DNK"), ("FI", "FIN"), ("PL", "POL"), ("TH", "THA"), ("MY", "MYS"),
   ("PH", "PHL"), ("ID", "IDN"), ("VN", "VNM"), ("NZ", "NZL"), ("ZA", "ZAF"),
   ("TR", "TUR"), ("GR", "GRC"), ("PT", "PRT"), ("CZ", "CZE"), ("HU", "HUN"),
   ("RO", "ROU"), ("BG", "BGR"), ("UA", "UKR"), ("AE", "ARE"), ("SA", "SAU")]

/-- `iso2ToIso3`: static lookup on the trimmed upper-cased code, `null`
(`none`) when unmapped. -/
def iso2ToIso3 (code : String) : Option String :=
  (ISO_2_TO_ISO_3.find? (fun p => p.1 == upperStr (trimStr code))).map (fun p => p.2)

/-- The display-name table of `getCountryName`. -/
def countryNamesTable : List (String × String) :=
  [("EP", "European Patent Office (No country)"),
   ("WO", "International (PCT) (No country)"),
   ("US", "United States"), ("GB", "United Kingdom"), ("FR", "France"),
   ("DE", "Germany"), ("JP", "Japan"), ("CN", "China"), ("IN", "India"),
   ("CA", "Canada"), ("AU", "Australia"), ("NO", "Norway"), ("SE", "Sweden"),
   ("CH", "Switzerland"), ("NL", "Netherlands"), ("KR", "South Korea"),
   ("BR", "Brazil"), ("MX", "Mexico"), ("RU", "Russia"), ("ES", "Spain"),
   ("IT", "Italy"), ("BE", "Belgium"), ("SG", "Singapore"), ("HK", "Hong Kong"),
   ("TW", "Taiwan"), ("IL", "Israel"), ("IE", "Ireland"), ("DK", "Denmark"),
   ("FI", "Finland"), ("IS", "Iceland"), ("PL", "Poland"), ("TH", "Thailand"),
   ("MY", "Malaysia"), ("PH", "Philippines"), ("ID", "Indonesia"),
   ("VN", "Vietnam"), ("NZ", "New Zealand"), ("ZA", "South Africa"),
   ("TR", "Turkey"), ("GR", "Greece"), ("PT", "Portugal"), ("CZ", "Czechia"),
   ("HU", "Hungary"), ("RO", "Romania"), ("BG", "Bulgaria"), ("UA", "Ukraine"),
   ("AE", "United Arab Emirates"), ("SA", "Saudi Arabia")]

def getCountryName (code : String) : String :=
  match (countryNamesTable.find? (fun p => p.1 == upperStr code)).map (fun p => p.2) with
  | some name => name
  | none => code

def NORDIC_COUNTRY_CODES : List String := ["DK", "FI", "IS", "NO", "SE"]

structure CountryData5 where
  countryCode : String
  countryName : String
  iso3 : Option String
  total : Int
deriving DecidableEq

/-- `row['Total'] || row['total'] || '0'`. -/
def rawTotalStr (row : Row) : String :=
  match jsOr (jsOr (lookup row "Total") (lookup row "total")) (some "0") with
  | some s => s
  | none => "0"

/-- `parseInt(row['Total'] || row['total'] || '0', 10)`; `none` is `NaN`. -/
def totalParsed (row : Row) : Option Int := jsParseInt (rawTotalStr row)

/-- `processCountryData` from the geographic route with ISO-3 lookup: one
record per row with a present, non-empty (trimmed) country code and a
non-`NaN` total. -/
def processCountryData (records : List Row) (countryField : String) :
    List CountryData5 :=
  records.filterMap (fun row =>
    match (lookup row countryField).map trimStr with
    | none => none
    | some code =>
      if code == "" then none
      else
        match totalParsed row with
        | none => none
        | some total =>
          some { countryCode := code, countryName := getCountryName code,
                 iso3 := iso2ToIso3 code, total := total })

def filterNordicData (data : List CountryData5) : List CountryData5 :=
  data.filter (fun item => NORDIC_COUNTRY_CODES.contains item.countryCode)

/-- The Nordic padding loop of `getGeographicData`: append a zero-total
record for each Nordic code not yet present. -/
def padNordic (nordic : List CountryData5) : List CountryData5 :=
  NORDIC_COUNTRY_CODES.foldl
    (fun acc code =>
      if acc.any (fun d => d.countryCode == code) then acc
      else acc ++ [{ countryCode := code, countryName := getCountryName code,
                     iso3 := iso2ToIso3 code, total := 0 }])
    nordic

/-! ## Geographic route (version that splits out special regions) -/

structure CountryInfo where
  iso2 : String
  iso3 : String
  name : String
deriving DecidableEq

/-- The `COUNTRY_DATA` static table (ISO-2 key to full country info). -/
def COUNTRY_DATA : List (String × CountryInfo) :=
  [("US", ⟨"US", "USA", "United States"⟩), ("GB", ⟨"GB", "GBR", "United Kingdom"⟩),
   ("FR", ⟨"FR", "FRA", "France"⟩), ("DE", ⟨"DE", "DEU", "Germany"⟩),
   ("JP", ⟨"JP", "JPN", "Japan"⟩), ("CN", ⟨"CN", "CHN", "China"⟩),
   ("IN", ⟨"IN", "IND", "India"⟩), ("CA", ⟨"CA", "CAN", "Canada"⟩),
   ("AU", ⟨"AU", "AUS", "Australia"⟩), ("NO", ⟨"NO", "NOR", "Norway"⟩),
   ("SE", ⟨"SE", "SWE", "Sweden"⟩), ("CH", ⟨"CH", "CHE", "Switzerland"⟩),
   ("NL", ⟨"NL", "NLD", "Netherlands"⟩), ("KR", ⟨"KR", "KOR", "South Korea"⟩),
   ("BR", ⟨"BR", "BRA", "Brazil"⟩), ("MX", ⟨"MX", "MEX", "Mexico"⟩),
   ("RU", ⟨"RU", "RUS", "Russia"⟩), ("ES", ⟨"ES", "ESP", "Spain"⟩),
   ("IT", ⟨"IT", "ITA", "Italy"⟩), ("BE", ⟨"BE", "BEL", "Belgium"⟩),
   ("SG", ⟨"SG", "SGP", "Singapore"⟩), ("HK", ⟨"HK", "HKG", "Hong Kong"⟩),
   ("TW", ⟨"TW", "TWN", "Taiwan"⟩), ("IL", ⟨"IL", "ISR", "Israel"⟩),
   ("IE", ⟨"IE", "IRL", "Ireland"⟩), ("DK", ⟨"DK", "DNK", "Denmark"⟩),
   ("FI", ⟨"FI", "FIN", "Finland"⟩), ("IS", ⟨"IS", "ISL", "Iceland"⟩),
   ("PL", ⟨"PL", "POL", "Poland"⟩), ("TH", ⟨"TH", "THA", "Thailand"⟩),
   ("MY", ⟨"MY", "MYS", "Malaysia"⟩), ("PH", ⟨"PH", "PHL", "Philippines"⟩),
   ("ID", ⟨"ID", "IDN", "Indonesia"⟩), ("VN", ⟨"VN", "VNM", "Vietnam"⟩),
   ("NZ", ⟨"NZ", "NZL", "New Zealand"⟩), ("ZA", ⟨"ZA", "ZAF", "South Africa"⟩),
   ("TR", ⟨"TR", "TUR", "Turkey"⟩), ("GR", ⟨"GR", "GRC", "Greece"⟩),
   ("PT", ⟨"PT", "PRT", "Portugal"⟩), ("CZ", ⟨"CZ", "CZE", "Czechia"⟩),
   ("HU", ⟨"HU", "HUN", "Hungary"⟩), ("RO", ⟨"RO", "ROU", "Romania"⟩),
   ("BG", ⟨"BG", "BGR", "Bulgaria"⟩), ("UA", ⟨"UA", "UKR", "Ukraine"⟩),
   ("AE", ⟨"AE", "ARE", "United Arab Emirates"⟩), ("SA", ⟨"SA", "SAU", "Saudi Arabia"⟩),
   ("EP", ⟨"EP", "EPO", "European Patent Office"⟩), ("WO", ⟨"WO", "WO", "International (PCT)"⟩)]

def SPECIAL_REGIONS : List String := ["EP", "WO", "PCT"]

def isSpecialRegion (code : String) : Bool :=
  SPECIAL_REGIONS.contains (upperStr code)

/-- `getCountryInfo`: table value at the upper-cased code, else a fallback
that uses the upper-cased code itself for every field. -/
def getCountryInfo (code : String) : CountryInfo :=
  match (COUNTRY_DATA.find? (fun p => p.1 == upperStr code)).map (fun p => p.2) with
  | some info => info
  | none => ⟨upperStr code, upperStr code, upperStr code⟩

/-- `parseTotal`: `parseInt(value || '0', 10)` with `NaN` mapped to 0. -/
def parseTotal (v : Option String) : Int :=
  (jsParseInt (match v with | none => "0" | some s => if s == "" then "0" else s)).getD 0

structure WorldMapData where
  country : String
  code : String
  total : Int
deriving DecidableEq

structure CountryListData where
  country : String
  total : Int
deriving DecidableEq

structure SpecialRegionData where
  code : String
  name : String
  total : Int
deriving DecidableEq

structure Dataset where
  map : List WorldMapData
  list : List CountryListData
deriving DecidableEq

structure ProcessedData where
  dataset : Dataset
  specialRegions : List SpecialRegionData
deriving DecidableEq

/-- One iteration of the row loop of the special-region-splitting
`processCountryData`: a row with a missing or empty code is skipped, a
special-region code goes to the second list, everything else to the first. -/
def splitStep (codeKey totalKey : String)
    (acc : List (CountryInfo × Int) × List SpecialRegionData) (row : Row) :
    List (CountryInfo × Int) × List SpecialRegionData :=
  match (lookup row codeKey).map trimStr with
  | none => acc
  | some code =>
    if code == "" then acc
    else
      let total := parseTotal (lookup row totalKey)
      let info := getCountryInfo code
      if isSpecialRegion code then
        (acc.1, acc.2 ++ [{ code := info.iso2, name := info.name, total := total }])
      else (acc.1 ++ [(info, total)], acc.2)

/-- The row loop of the special-region-splitting `processCountryData`, in
row order. -/
def splitCountryRows (records : List Row) (codeKey totalKey : String) :
    List (CountryInfo × Int) × List SpecialRegionData :=
  records.foldl (splitStep codeKey totalKey) ([], [])

/-- `processCountryData` from the special-region-splitting geographic route. -/
def processCountryData4 (records : List Row) (codeKey totalKey : String) :
    ProcessedData :=
  let split := splitCountryRows records codeKey totalKey
  { dataset :=
      { map := split.1.map (fun p => { country := p.1.name, code := p.1.iso3, total := p.2 })
        list := sortDescBy (fun c => c.total)
                  (split.1.map (fun p => { country := p.1.name, total := p.2 })) }
    specialRegions := sortDescBy (fun s => s.total) split.2 }

/-! ## Timeline aggregation -/

structure LongFormatData where
  owner : String
  year : Int
  count : Int
deriving DecidableEq

structure YearTotal where
  year : Int
  total : Int
deriving DecidableEq

structure OwnerTotal where
  owner : String
  total : Int
deriving DecidableEq

structure SummaryStats where
  totalPatents : Int
  uniqueOwners : Nat
  dateRange : String
  peakYear : String
  peakCount : Int
deriving DecidableEq

/-- `isValidOwnerName`: falsy owners and the normalized labels `none`,
`null`, `unknown` are rejected. -/
def isValidOwnerName (owner : String) : Bool :=
  if owner == "" then false
  else
    let n := lowerStr (trimStr owner)
    !(n == "") && !(n == "none") && !(n == "null") && !(n == "unknown")

/-- `row[ownerKey]?.toString().replace(/"/g, '').trim()`. -/
def ownerCell (row : Row) (ownerKey : String) : Option String :=
  (lookup row ownerKey).map (fun v => trimStr (v.data.filter (fun c => !(c == '"'))).asString)

/-- `convertToLongFormat`: one (owner, year, count) fact per kept row and
year column with a positive parsed count. -/
def convertToLongFormat (records : List Row) (years : List String)
    (ownerKey : String) : List LongFormatData :=
  records.flatMap (fun row =>
    match ownerCell row ownerKey with
    | none => []
    | some owner =>
      if isValidOwnerName owner then
        years.filterMap (fun yearStr =>
          match jsParseInt ((jsOr (lookup row yearStr) (some "0")).getD "0"),
                jsParseInt yearStr with
          | some count, some year =>
            if 0 < count then some { owner := owner, year := year, count := count }
            else none
          | _, _ => none)
      else [])

/-- `Map.set(k, (Map.get(k) || 0) + v)`: insertion-ordered, first occurrence
keeps its position. -/
def mapAdd {κ : Type} [BEq κ] (m : List (κ × Int)) (k : κ) (v : Int) :
    List (κ × Int) :=
  if m.any (fun p => p.1 == k) then m.map (fun p => if p.1 == k then (p.1, p.2 + v) else p)
  else m ++ [(k, v)]

def buildYearMap (longData : List LongFormatData) : List (Int × Int) :=
  longData.foldl (fun m item => mapAdd m item.year item.count) []

/-- `calculateYearTotals`. -/
def calculateYearTotals (longData : List LongFormatData) : List YearTotal :=
  sortAscBy (fun yt => yt.year)
    ((buildYearMap longData).map (fun p => { year := p.1, total := p.2 }))

def buildOwnerMap (longData : List LongFormatData) : List (String × Int) :=
  longData.foldl (fun m item => mapAdd m item.owner item.count) []

/-- `calculateTopOwners`. -/
def calculateTopOwners (longData : List LongFormatData) (limit : Nat) :
    List OwnerTotal :=
  ((sortDescBy (fun ot => ot.total)
      ((buildOwnerMap longData).map (fun p => { owner := p.1, total := p.2 }))).take limit)

/-- `Math.min(...years)` on a non-empty list (the route only reaches this
with non-empty data; the empty case is a placeholder). -/
def jsMinInt : List Int → Int
  | [] => 0
  | y :: ys => ys.foldl min y

def jsMaxInt : List Int → Int
  | [] => 0
  | y :: ys => ys.foldl max y

/-- The peak-finding `forEach` of `calculateSummaryStats`, starting from
`(minYear, 0)` and keeping the first strictly larger count. -/
def peakFold (init : Int × Int) (entries : List (Int × Int)) : Int × Int :=
  entries.foldl (fun acc p => if acc.2 < p.2 then (p.1, p.2) else acc) init

/-- `calculateSummaryStats`. -/
def calculateSummaryStats (longData : List LongFormatData) : SummaryStats :=
  let totalPatents := longData.foldl (fun s item => s + item.count) 0
  let uniqueOwners := (longData.map (fun d => d.owner)).dedup.length
  let years := longData.map (fun d => d.year)
  let minYear := jsMinInt years
  let maxYear := jsMaxInt years
  let peak := peakFold (minYear, 0) (buildYearMap longData)
  { totalPatents := totalPatents
    uniqueOwners := uniqueOwners
    dateRange := toString minYear ++ " - " ++ toString maxYear
    peakYear := toString peak.1
    peakCount := peak.2 }

/-! ## Entity aggregation -/

structure AssigneeData where
  country : String
  assignee : String
  count : Int
deriving DecidableEq

structure InventorData where
  country : String
  inventor : String
  count : Int
deriving DecidableEq

def normalizeKey (k : String) : String := lowerStr (trimStr k)

/-- The key-normalization loop: a fresh object whose properties are the
normalized keys (later duplicates overwrite, first position wins). -/
def normalizeRow (row : Row) : Row :=
  row.foldl (fun acc p => assocSet acc (normalizeKey p.1) p.2) []

/-- `normalizeAssigneeData`. -/
def normalizeAssigneeData (rawData : List Row) : List AssigneeData :=
  sortDescBy (fun a => a.count)
    (rawData.filterMap (fun item =>
      let ni := normalizeRow item
      let country := ((lookup ni "country").map trimStr).getD ""
      let assignee :=
        match (lookup ni "assignee").map trimStr with
        | none => "Unknown"
        | some t => if t == "" then "Unknown" else t
      match jsParseInt ((jsOr (lookup ni "count") (some "0")).getD "0") with
      | none => none
      | some count =>
        if !(assignee == "") && decide (0 < count) then
          some { country := country, assignee := assignee, count := count }
        else none))

/-- The inventor group-by map: name to (country of first occurrence, number
of occurrences), in first-occurrence order. -/
def inventorFold (rawData : List Row) : List (String × String × Int) :=
  rawData.foldl
    (fun m item =>
      let ni := normalizeRow item
      let inventor := ((lookup ni "inventor").map trimStr).getD ""
      let country := ((lookup ni "country").map trimStr).getD ""
      if inventor == "" then m
      else if m.any (fun e => e.1 == inventor) then
        m.map (fun e => if e.1 == inventor then (e.1, e.2.1, e.2.2 + 1) else e)
      else m ++ [(inventor, country, 1)])
    []

/-- `processInventorData`. -/
def processInventorData (rawData : List Row) : List InventorData :=
  sortDescBy (fun i => i.count)
    ((inventorFold rawData).map (fun e =>
      { country := e.2.1, inventor := e.1, count := e.2.2 }))

/-! ## File resolver

The filesystem is a parameter `existsF : String → Bool` (the result of
`fs.existsSync`); `path.join` on the plain relative names these routes use is
separator concatenation. -/

def pathJoin (a b : String) : String := a ++ "/" ++ b

/-- The shared try-main-then-alternates loop of both `findCsvFile` versions. -/
def firstExisting (existsF : String → Bool) (baseDir : String) :
    List String → Option String
  | [] => none
  | n :: ns =>
    if existsF (pathJoin baseDir n) then some (pathJoin baseDir n)
    else firstExisting existsF baseDir ns

/-- `findCsvFile` from the classification route: bails out when the data
directory itself is missing, otherwise tries the canonical name then the
alternates in order. -/
def findCsvFileC (existsF : String → Bool) (cwd filename dir : String)
    (alternates : List String) : Option String :=
  let baseDir := pathJoin (pathJoin cwd "data") dir
  if existsF baseDir then firstExisting existsF baseDir (filename :: alternates)
  else none

/-- `findCsvFile` from the entity route (no directory-existence pre-check). -/
def findCsvFileE (existsF : String → Bool) (cwd filename directory : String)
    (alternates : List String) : Option String :=
  firstExisting existsF (pathJoin (pathJoin cwd "data") directory)
    (filename :: alternates)

/-! ## Endpoint hard-failure models

Each handler is modelled on its non-throwing paths as a function from the
per-file inputs (`none` = file missing or unreadable/unparsable, which the
routes degrade to the same empty state) to the HTTP status and `success`
flag of the JSON response. -/

structure Resp where
  status : Nat
  success : Bool
deriving DecidableEq

/-- The six processed sections of `getClassificationData`, each `[]` when its
file is missing or failed to load. -/
structure ClassificationSections where
  ipcFull : List ClassificationItem
  cpcFull : List ClassificationItem
  ipcByOwner : List Obj
  cpcByOwner : List Obj
  cpcByYear : List Obj
  ipcByYear : List Obj
deriving DecidableEq

def classificationSections (fIpcFull fCpcFull fIpcOwner fCpcOwner fCpcYear fIpcYear :
    Option (List Row)) : ClassificationSections :=
  { ipcFull := match fIpcFull with | none => [] | some rs => processFullClassification rs 10
    cpcFull := match fCpcFull with | none => [] | some rs => processFullClassification rs 10
    ipcByOwner := match fIpcOwner with | none => [] | some rs => processOwnerClassification rs 15 5
    cpcByOwner := match fCpcOwner with | none => [] | some rs => processOwnerClassification rs 15 5
    cpcByYear := match fCpcYear with | none => [] | some rs => processYearClassification rs
    ipcByYear := match fIpcYear with | none => [] | some rs => processYearClassification rs }

/-- The `hasData` check of the primary classification route. -/
def classificationHasData (d : ClassificationSections) : Bool :=
  !d.ipcFull.isEmpty || !d.cpcFull.isEmpty || !d.ipcByOwner.isEmpty ||
  !d.cpcByOwner.isEmpty || !d.cpcByYear.isEmpty || !d.ipcByYear.isEmpty

/-- Status and success flag of the primary classification `GET`. -/
def classificationGET (fIpcFull fCpcFull fIpcOwner fCpcOwner fCpcYear fIpcYear :
    Option (List Row)) : Resp :=
  if classificationHasData
      (classificationSections fIpcFull fCpcFull fIpcOwner fCpcOwner fCpcYear fIpcYear) then
    { status := 200, success := true }
  else { status := 500, success := false }

/-- The `hasAssigneeData / hasInventorData` check of the entity route: it
looks at the raw record counts (`loadCsvDataSafe` turns a missing or broken
file into `[]`). -/
def entityHasData (aCount aCountry iCount iCountry aProcessed : Option (List Row)) :
    Bool :=
  !(aProcessed.getD []).isEmpty || !(aCount.getD []).isEmpty ||
  !(aCountry.getD []).isEmpty || !(iCount.getD []).isEmpty ||
  !(iCountry.getD []).isEmpty

/-- Status and success flag of the entity `GET`. -/
def entityGET (aCount aCountry iCount iCountry aProcessed : Option (List Row)) : Resp :=
  if entityHasData aCount aCountry iCount iCountry aProcessed then
    { status := 200, success := true }
  else { status := 500, success := false }

/-- Status and success flag of the timeline `GET`
(`src/app/api/timeline/route.ts`): a missing file or an empty record set is
answered with HTTP 404, any non-empty record set with HTTP 200. -/
def timelineGET (file : Option (List Row)) : Resp :=
  match file with
  | none => { status := 404, success := false }
  | some [] => { status := 404, success := false }
  | some (_ :: _) => { status := 200, success := true }

/-! ## Concrete example inputs and derived definitions used by the theorems -/

/-- The two-row geography CSV of the scenario. -/
def geoScenarioRows : List Row :=
  [[("All Family Country", "NO"), ("Total", "12")],
   [("All Family Country", "EP"), ("Total", "5")]]

/-- A tiny concrete filesystem for the resolver. -/
def wExists : String → Bool :=
  fun s => s == "/w/data/raw" || s == "/w/data/raw/alt.csv"

/-- Witness input for C2: one row, one year column. -/
def tlRows : List Row := [[("Current Owner", "Acme"), ("2012", "3")]]

/-- A CSV with a negative classification cell and a negative country total. -/
def negTotalsRows : List Row := [[("Owner", "A"), ("Total", "5"), ("C", "-3")]]

/-- Every number stored in the object is non-negative. -/
def numsOK (obj : Obj) : Prop :=
  ∀ p ∈ obj, ∀ n : Int, p.2 = JVal.num n → 0 ≤ n

/-- A CSV whose fields all parse to non-negative numbers. -/
def posRows : List Row := [[("Owner", "A"), ("Total", "5"), ("C", "3")]]

/-- The `item.total` value of an owner object (always a number in practice). -/
def objTotalInt (obj : Obj) : Int :=
  match objGet obj "total" with
  | some (.num n) => n
  | _ => 0

/-- Keys other than the two base properties. -/
def notBaseKey (k : String) : Bool := !(k == "currentOwner") && !(k == "total")

/-- Two valid owner rows whose totals are in ascending order. -/
def unsortedOwnerRows : List Row :=
  [[("Owner", "A"), ("Total", "1"), ("C", "2")],
   [("Owner", "B"), ("Total", "5"), ("C", "3")]]

/-- A repeated header row above two valid owner rows that are already
sorted by descending total: the header row is removed by the validity
filter, so only the valid rows' order matters. -/
def headerThenSortedRows : List Row :=
  [[("Owner", "Current Owner"), ("Total", "Total"), ("C", "C")],
   [("Owner", "B"), ("Total", "5"), ("C", "3")],
   [("Owner", "A"), ("Total", "1"), ("C", "2")]]

/-- A long-format list with a negative count. -/
def negLong : List LongFormatData := [{ owner := "a", year := 2000, count := -1 }]

/-- Witness long-format data for C10. -/
def wLong : List LongFormatData :=
  [{ owner := "a", year := 2012, count := 3 },
   { owner := "b", year := 2012, count := 2 },
   { owner := "a", year := 2013, count := 4 }]

/-! ## Helper lemmas about the stable sorts -/

theorem insertDescBy_perm {α : Type} (key : α → Int) (x : α) (l : List α) :
    (insertDescBy key x l).Perm (x :: l) := by
  induction l with
  | nil => simp [insertDescBy]
  | cons y ys ih =>
    simp only [insertDescBy]
    split
    · exact ((ih.cons y).trans (List.Perm.swap x y ys))
    · exact List.Perm.refl _

theorem sortDescBy_perm {α : Type} (key : α → Int) (l : List α) :
    (sortDescBy key l).Perm l := by
  induction l with
  | nil => exact List.Perm.refl _
  | cons x xs ih =>
    exact (insertDescBy_perm key x (sortDescBy key xs)).trans (ih.cons x)

theorem mem_sortDescBy {α : Type} (key : α → Int) (l : List α) (a : α) :
    a ∈ sortDescBy key l ↔ a ∈ l :=
  (sortDescBy_perm key l).mem_iff

theorem insertDescBy_pairwise {α : Type} (key : α → Int) (x : α) (l : List α)
    (h : l.Pairwise (fun a b => key b ≤ key a)) :
    (insertDescBy key x l).Pairwise (fun a b => key b ≤ key a) := by
  induction l with
  | nil => simp [insertDescBy]
  | cons y ys ih =>
    rw [List.pairwise_cons] at h
    simp only [insertDescBy]
    split
    · rename_i hlt
      rw [List.pairwise_cons]
      refine ⟨?_, ih h.2⟩
      intro b hb
      rcases List.mem_cons.mp ((insertDescBy_perm key x ys).mem_iff.mp hb) with hb3 | hb3
      · subst hb3; exact le_of_lt hlt
      · exact h.1 b hb3
    · rename_i hge
      rw [List.pairwise_cons]
      refine ⟨?_, List.pairwise_cons.mpr h⟩
      intro b hb
      rcases List.mem_cons.mp hb with hb3 | hb3
      · subst hb3; exact le_of_not_lt hge
      · exact le_trans (h.1 b hb3) (le_of_not_lt hge)

theorem sortDescBy_pairwise {α : Type} (key : α → Int) (l : List α) :
    (sortDescBy key l).Pairwise (fun a b => key b ≤ key a) := by
  induction l with
  | nil => simp [sortDescBy]
  | cons x xs ih => exact insertDescBy_pairwise key x (sortDescBy key xs) ih

/-- Every element kept by `take c` after the descending sort dominates every
element pushed past the cut. -/
theorem sortDescBy_take_ge {α : Type} (key : α → Int) (l : List α) (c : Nat)
    (p : α) (hp : p ∈ (sortDescBy key l).take c)
    (q : α) (hq : q ∈ (sortDescBy key l).drop c) : key q ≤ key p := by
  have h := sortDescBy_pairwise key l
  rw [← List.take_append_drop c (sortDescBy key l), List.pairwise_append] at h
  exact h.2.2 p hp q hq

theorem insertAscBy_perm {α : Type} (key : α → Int) (x : α) (l : List α) :
    (insertAscBy key x l).Perm (x :: l) := by
  induction l with
  | nil => simp [insertAscBy]
  | cons y ys ih =>
    simp only [insertAscBy]
    split
    · exact ((ih.cons y).trans (List.Perm.swap x y ys))
    · exact List.Perm.refl _

theorem sortAscBy_perm {α : Type} (key : α → Int) (l : List α) :
    (sortAscBy key l).Perm l := by
  induction l with
  | nil => exact List.Perm.refl _
  | cons x xs ih =>
    exact (insertAscBy_perm key x (sortAscBy key xs)).trans (ih.cons x)

theorem mem_sortAscBy {α : Type} (key : α → Int) (l : List α) (a : α) :
    a ∈ sortAscBy key l ↔ a ∈ l :=
  (sortAscBy_perm key l).mem_iff

/-! ## Helper lemmas about the object model -/

theorem mem_assocSet {β : Type} (m : List (String × β)) (k : String) (v : β)
    (q : String × β) (h : q ∈ assocSet m k v) : q ∈ m ∨ q = (k, v) := by
  unfold assocSet at h
  split at h
  · rcases List.mem_map.mp h with ⟨p, hp, hq⟩
    by_cases hk : (p.1 == k) = true
    · right; rw [if_pos hk] at hq; exact hq.symm
    · left
      rw [Bool.not_eq_true] at hk
      rw [if_neg (by simp [hk])] at hq
      rw [← hq]; exact hp
  · rcases List.mem_append.mp h with h1 | h1
    · exact Or.inl h1
    · right; simpa using h1

theorem keys_assocSet_overwrite {β : Type} (m : List (String × β)) (k : String) (v : β)
    (h : m.any (fun p => p.1 == k) = true) :
    (assocSet m k v).map (fun p => p.1) = m.map (fun p => p.1) := by
  unfold assocSet
  rw [if_pos h, List.map_map]
  refine List.map_congr_left ?_
  intro p _
  by_cases hk : (p.1 == k) = true
  · simp only [Function.comp, hk, if_pos]
    exact (beq_iff_eq.mp hk).symm
  · rw [Bool.not_eq_true] at hk
    simp only [Function.comp, hk]
    rfl

theorem find?_map_overwrite {β : Type} (m : List (String × β)) (k k2 : String) (v : β)
    (hne : ¬ k2 = k) :
    (m.map (fun p => if p.1 == k2 then (k2, v) else p)).find? (fun p => p.1 == k) =
      m.find? (fun p => p.1 == k) := by
  induction m with
  | nil => rfl
  | cons p rest ih =>
    rw [List.map_cons]
    by_cases hk2 : (p.1 == k2) = true
    · rw [if_pos hk2]
      have hpk : (p.1 == k) = false := by
        rw [beq_eq_false_iff_ne]
        rw [beq_iff_eq] at hk2
        rw [hk2]; exact hne
      have hkk : (k2 == k) = false := by
        rw [beq_eq_false_iff_ne]; exact hne
      simp only [List.find?_cons, hpk, hkk, cond_false]
      exact ih
    · rw [Bool.not_eq_true] at hk2
      rw [if_neg (by simp [hk2])]
      cases hpk : (p.1 == k) with
      | true => simp only [List.find?_cons, hpk, cond_true]
      | false =>
        simp only [List.find?_cons, hpk, cond_false]
        exact ih

theorem find?_assocSet_ne {β : Type} (m : List (String × β)) (k k2 : String) (v : β)
    (hne : ¬ k2 = k) :
    ((assocSet m k2 v).find? (fun p => p.1 == k)) = m.find? (fun p => p.1 == k) := by
  unfold assocSet
  split
  · exact find?_map_overwrite m k k2 v hne
  · rw [List.find?_append]
    cases hf : m.find? (fun p => p.1 == k) with
    | some a => rfl
    | none =>
      have hkk : ((k2, v).1 == k) = false := by
        rw [beq_eq_false_iff_ne]; exact hne
      simp [List.find?, hkk]

/-! ## Claim C3: the two-row geography scenario -/

/-- Claim C3: the two-row geography CSV with `NO`/`12` and `EP`/`5` is
processed into exactly one country record for Norway (iso3 `NOR`, total 12)
and exactly one special-region record for EP (total 5), and Norway appears
in the Nordic subset with total 12 while the zero-total fallback entries are
added only for the Nordic countries absent from the input. -/
theorem geography_scenario :
    processCountryData geoScenarioRows "All Family Country" =
      [{ countryCode := "NO", countryName := "Norway", iso3 := some "NOR", total := 12 },
       { countryCode := "EP", countryName := "European Patent Office (No country)",
         iso3 := none, total := 5 }] ∧
    (processCountryData4 geoScenarioRows "All Family Country" "Total").dataset.map =
      [{ country := "Norway", code := "NOR", total := 12 }] ∧
    (processCountryData4 geoScenarioRows "All Family Country" "Total").specialRegions =
      [{ code := "EP", name := "European Patent Office", total := 5 }] ∧
    padNordic (filterNordicData (processCountryData geoScenarioRows "All Family Country")) =
      [{ countryCode := "NO", countryName := "Norway", iso3 := some "NOR", total := 12 },
       { countryCode := "DK", countryName := "Denmark", iso3 := some "DNK", total := 0 },
       { countryCode := "FI", countryName := "Finland", iso3 := some "FIN", total := 0 },
       { countryCode := "IS", countryName := "Iceland", iso3 := none, total := 0 },
       { countryCode := "SE", countryName := "Sweden", iso3 := some "SWE", total := 0 }] := by
  refine ⟨by decide, by decide, by decide, by decide⟩

/-! ## Claim C6: ISO-3 derivation -/

/-- Claim C6 is falsified by the special-region-splitting geographic route:
for the unmapped code `XX`, `getCountryInfo` falls back to the code itself
as `iso3` (and the produced map record carries it), instead of a null value. -/
theorem iso3_unmapped_cex :
    (COUNTRY_DATA.find? (fun p => p.1 == upperStr "XX")) = none ∧
    (getCountryInfo "XX").iso3 = "XX" ∧
    (processCountryData4 [[("Priority Country", "XX"), ("Total", "3")]]
        "Priority Country" "Total").dataset.map =
      [{ country := "XX", code := "XX", total := 3 }] := by
  refine ⟨by decide, by decide, by decide⟩

/-- All ISO-3 values of the static table differ from their ISO-2 keys. -/
theorem iso_table_values_ne_keys : ∀ p ∈ ISO_2_TO_ISO_3, ¬ p.2 = p.1 := by decide

/-- Claim C6, amended: in the geographic route with the `ISO_2_TO_ISO_3`
table, every produced record's `iso3` is the static lookup at the trimmed
upper-cased code — `none` when unmapped and never the code itself; the
special-region-splitting route's `getCountryInfo` instead falls back to the
upper-cased code itself for unmapped codes. -/
theorem iso3_lookup_amended :
    (∀ records field r, r ∈ processCountryData records field →
        r.iso3 = iso2ToIso3 r.countryCode) ∧
    (∀ code, iso2ToIso3 code =
        (ISO_2_TO_ISO_3.find? (fun p => p.1 == upperStr (trimStr code))).map (fun p => p.2)) ∧
    (∀ code v, iso2ToIso3 code = some v → ¬ v = upperStr (trimStr code)) ∧
    (∀ code, (COUNTRY_DATA.find? (fun p => p.1 == upperStr code)) = none →
        (getCountryInfo code).iso3 = upperStr code) := by
  refine ⟨?_, fun code => rfl, ?_, ?_⟩
  · intro records field r hr
    rcases List.mem_filterMap.mp hr with ⟨row, _, hrow⟩
    cases hlk : (lookup row field).map trimStr with
    | none => simp [hlk] at hrow
    | some code =>
      simp only [hlk] at hrow
      by_cases hcode : (code == "") = true
      · simp [hcode] at hrow
      · rw [Bool.not_eq_true] at hcode
        simp only [hcode, Bool.false_eq_true, if_false] at hrow
        cases htot : totalParsed row with
        | none => simp [htot] at hrow
        | some t =>
          simp only [htot, Option.some.injEq] at hrow
          rw [← hrow]
  · intro code v hv
    unfold iso2ToIso3 at hv
    cases hf : ISO_2_TO_ISO_3.find? (fun p => p.1 == upperStr (trimStr code)) with
    | none => rw [hf] at hv; exact absurd hv (by simp)
    | some p =>
      rw [hf] at hv
      simp only [Option.map_some', Option.some.injEq] at hv
      have hp1 := List.find?_some hf
      rw [beq_iff_eq] at hp1
      have hmem := List.mem_of_find?_eq_some hf
      have hne := iso_table_values_ne_keys p hmem
      rw [← hv, ← hp1]
      exact hne
  · intro code hnone
    unfold getCountryInfo
    rw [hnone]
    rfl

/-- Witness for the amended C6 at concrete codes. -/
theorem iso3_lookup_amended_witness :
    iso2ToIso3 " no " = some "NOR" ∧
    ¬ "NOR" = upperStr (trimStr " no ") ∧
    (getCountryInfo "xx").iso3 = upperStr "xx" := by
  refine ⟨by decide, iso3_lookup_amended.2.2.1 " no " "NOR" (by decide),
    iso3_lookup_amended.2.2.2 "xx" (by decide)⟩

/-! ## Claim C9: the file resolver -/

theorem firstExisting_eq_find (existsF : String → Bool) (baseDir : String)
    (names : List String) :
    firstExisting existsF baseDir names =
      (names.find? (fun n => existsF (pathJoin baseDir n))).map (pathJoin baseDir) := by
  induction names with
  | nil => rfl
  | cons n ns ih =>
    cases h : existsF (pathJoin baseDir n) with
    | true => simp [firstExisting, List.find?_cons, h]
    | false => simp [firstExisting, List.find?_cons, h, ih]

/-- Claim C9: both `findCsvFile` versions return the full path of the first
name among canonical-then-alternates that exists in the data directory, and
`null` exactly when none exists.  For the classification version, which
pre-checks the directory, the filesystem must be coherent: a file existing
inside the directory implies the directory exists. -/
theorem findCsvFile_first_existing (existsF : String → Bool)
    (cwd filename dir : String) (alternates : List String)
    (hcoh : ∀ n, existsF (pathJoin (pathJoin (pathJoin cwd "data") dir) n) = true →
      existsF (pathJoin (pathJoin cwd "data") dir) = true) :
    findCsvFileC existsF cwd filename dir alternates =
      ((filename :: alternates).find?
          (fun n => existsF (pathJoin (pathJoin (pathJoin cwd "data") dir) n))).map
        (pathJoin (pathJoin (pathJoin cwd "data") dir)) ∧
    (findCsvFileC existsF cwd filename dir alternates = none ↔
      ∀ n ∈ filename :: alternates,
        existsF (pathJoin (pathJoin (pathJoin cwd "data") dir) n) = false) ∧
    findCsvFileE existsF cwd filename dir alternates =
      ((filename :: alternates).find?
          (fun n => existsF (pathJoin (pathJoin (pathJoin cwd "data") dir) n))).map
        (pathJoin (pathJoin (pathJoin cwd "data") dir)) ∧
    (findCsvFileE existsF cwd filename dir alternates = none ↔
      ∀ n ∈ filename :: alternates,
        existsF (pathJoin (pathJoin (pathJoin cwd "data") dir) n) = false) := by
  have hE : findCsvFileE existsF cwd filename dir alternates =
      ((filename :: alternates).find?
          (fun n => existsF (pathJoin (pathJoin (pathJoin cwd "data") dir) n))).map
        (pathJoin (pathJoin (pathJoin cwd "data") dir)) :=
    firstExisting_eq_find existsF _ _
  have hC : findCsvFileC existsF cwd filename dir alternates =
      ((filename :: alternates).find?
          (fun n => existsF (pathJoin (pathJoin (pathJoin cwd "data") dir) n))).map
        (pathJoin (pathJoin (pathJoin cwd "data") dir)) := by
    unfold findCsvFileC
    cases hb : existsF (pathJoin (pathJoin cwd "data") dir) with
    | true =>
      simp only [hb, if_true]
      exact firstExisting_eq_find existsF _ _
    | false =>
      simp only [hb, Bool.false_eq_true, if_false]
      have hnone : (filename :: alternates).find?
          (fun n => existsF (pathJoin (pathJoin (pathJoin cwd "data") dir) n)) = none := by
        rw [List.find?_eq_none]
        intro n _ hn
        rw [hcoh n hn] at hb
        exact absurd hb (by simp)
      rw [hnone]; rfl
  have hiff : ∀ res : Option String,
      res = ((filename :: alternates).find?
          (fun n => existsF (pathJoin (pathJoin (pathJoin cwd "data") dir) n))).map
        (pathJoin (pathJoin (pathJoin cwd "data") dir)) →
      (res = none ↔ ∀ n ∈ filename :: alternates,
        existsF (pathJoin (pathJoin (pathJoin cwd "data") dir) n) = false) := by
    intro res hres
    rw [hres, Option.map_eq_none', List.find?_eq_none]
    constructor
    · intro h n hn
      have := h n hn
      rw [Bool.not_eq_true] at this
      exact this
    · intro h n hn
      rw [h n hn]
      simp
  exact ⟨hC, hiff _ hC, hE, hiff _ hE⟩

/-- Witness for C9: under `wExists` the canonical name is missing, so the
resolver returns the alternate. -/
theorem findCsvFile_first_existing_witness :
    findCsvFileC wExists "/w" "Main.csv" "raw" ["alt.csv"] =
      (("Main.csv" :: ["alt.csv"]).find?
          (fun n => wExists (pathJoin (pathJoin (pathJoin "/w" "data") "raw") n))).map
        (pathJoin (pathJoin (pathJoin "/w" "data") "raw")) ∧
    findCsvFileC wExists "/w" "Main.csv" "raw" ["alt.csv"] = some "/w/data/raw/alt.csv" :=
  ⟨(findCsvFile_first_existing wExists "/w" "Main.csv" "raw" ["alt.csv"]
      (fun n _ => by decide)).1, by decide⟩

/-! ## Claim C8: determinism of the aggregators -/

/-- Claim C8: every aggregator is a pure function of its parsed input — two
runs on equal record lists give equal outputs. -/
theorem aggregators_deterministic (r1 r2 : List Row) (h : r1 = r2)
    (field codeKey totalKey ownerKey : String) (years : List String)
    (ld1 ld2 : List LongFormatData) (hld : ld1 = ld2) :
    processCountryData r1 field = processCountryData r2 field ∧
    processCountryData4 r1 codeKey totalKey = processCountryData4 r2 codeKey totalKey ∧
    normalizeAssigneeData r1 = normalizeAssigneeData r2 ∧
    processInventorData r1 = processInventorData r2 ∧
    processFullClassification r1 10 = processFullClassification r2 10 ∧
    processOwnerClassification r1 15 5 = processOwnerClassification r2 15 5 ∧
    processYearClassification r1 = processYearClassification r2 ∧
    convertToLongFormat r1 years ownerKey = convertToLongFormat r2 years ownerKey ∧
    calculateYearTotals ld1 = calculateYearTotals ld2 ∧
    calculateTopOwners ld1 8 = calculateTopOwners ld2 8 ∧
    calculateSummaryStats ld1 = calculateSummaryStats ld2 := by
  subst h; subst hld
  exact ⟨rfl, rfl, rfl, rfl, rfl, rfl, rfl, rfl, rfl, rfl, rfl⟩

/-- Witness for C8 at a concrete input. -/
theorem aggregators_deterministic_witness :
    processCountryData geoScenarioRows "All Family Country" =
      processCountryData geoScenarioRows "All Family Country" ∧
    processOwnerClassification geoScenarioRows 15 5 =
      processOwnerClassification geoScenarioRows 15 5 :=
  ⟨(aggregators_deterministic geoScenarioRows geoScenarioRows rfl
      "All Family Country" "c" "t" "o" [] [] [] rfl).1,
   (aggregators_deterministic geoScenarioRows geoScenarioRows rfl
      "All Family Country" "c" "t" "o" [] [] [] rfl).2.2.2.2.2.1⟩

/-! ## Claim C5: hard-failure policy of the endpoints -/

/-- Claim C5 is falsified by the timeline endpoint: with its single expected
input missing, it answers HTTP 404 (not 500) with `success: false`. -/
theorem timeline_missing_file_cex :
    timelineGET none = { status := 404, success := false } ∧
    ¬ (timelineGET none).status = 500 := by
  refine ⟨rfl, by decide⟩

/-- Claim C5, amended: the primary classification and the entity `GET`
handlers return HTTP 500 with `success: false` exactly when every section or
raw input is empty (missing inputs degrade to empty sections); the timeline
handler instead answers HTTP 404 with `success: false` when its single input
is missing or empty, and HTTP 200 with `success: true` otherwise. -/
theorem hard_failure_amended :
    (∀ f1 f2 f3 f4 f5 f6 : Option (List Row),
      (classificationGET f1 f2 f3 f4 f5 f6 = { status := 500, success := false } ↔
        ((classificationSections f1 f2 f3 f4 f5 f6).ipcFull = [] ∧
         (classificationSections f1 f2 f3 f4 f5 f6).cpcFull = [] ∧
         (classificationSections f1 f2 f3 f4 f5 f6).ipcByOwner = [] ∧
         (classificationSections f1 f2 f3 f4 f5 f6).cpcByOwner = [] ∧
         (classificationSections f1 f2 f3 f4 f5 f6).cpcByYear = [] ∧
         (classificationSections f1 f2 f3 f4 f5 f6).ipcByYear = [])) ∧
      (¬ classificationGET f1 f2 f3 f4 f5 f6 = { status := 500, success := false } →
        classificationGET f1 f2 f3 f4 f5 f6 = { status := 200, success := true })) ∧
    (∀ f2 f3 f4 f5 f6 : Option (List Row),
      (classificationSections none f2 f3 f4 f5 f6).ipcFull = []) ∧
    (∀ a1 a2 i1 i2 ap : Option (List Row),
      (entityGET a1 a2 i1 i2 ap = { status := 500, success := false } ↔
        (a1.getD [] = [] ∧ a2.getD [] = [] ∧ i1.getD [] = [] ∧
         i2.getD [] = [] ∧ ap.getD [] = []))) ∧
    (∀ f : Option (List Row),
      (timelineGET f = { status := 404, success := false } ↔ f.getD [] = []) ∧
      (¬ f.getD [] = [] → timelineGET f = { status := 200, success := true })) := by
  refine ⟨?_, ?_, ?_, ?_⟩
  · intro f1 f2 f3 f4 f5 f6
    constructor
    · unfold classificationGET
      cases hd : classificationHasData (classificationSections f1 f2 f3 f4 f5 f6) with
      | true =>
        simp only [hd, if_true]
        constructor
        · intro h; exact absurd h (by decide)
        · intro h
          unfold classificationHasData at hd
          rcases h with ⟨h1, h2, h3, h4, h5, h6⟩
          rw [h1, h2, h3, h4, h5, h6] at hd
          simp at hd
      | false =>
        simp only [hd, Bool.false_eq_true, if_false]
        unfold classificationHasData at hd
        simp [and_assoc] at hd
        constructor
        · intro _; exact hd
        · intro _; trivial
    · unfold classificationGET
      cases hd : classificationHasData (classificationSections f1 f2 f3 f4 f5 f6) with
      | true => intro _; simp [hd]
      | false => intro h; exact absurd (by simp [hd]) h
  · intro f2 f3 f4 f5 f6; rfl
  · intro a1 a2 i1 i2 ap
    unfold entityGET
    cases hd : entityHasData a1 a2 i1 i2 ap with
    | true =>
      simp only [hd, if_true]
      unfold entityHasData at hd
      constructor
      · intro h; exact absurd h (by decide)
      · intro h
        rcases h with ⟨h1, h2, h3, h4, h5⟩
        rw [h1, h2, h3, h4, h5] at hd
        simp at hd
    | false =>
      simp only [hd, Bool.false_eq_true, if_false]
      unfold entityHasData at hd
      simp [and_assoc] at hd
      constructor
      · intro _
        exact ⟨hd.2.1, hd.2.2.1, hd.2.2.2.1, hd.2.2.2.2, hd.1⟩
      · intro _; trivial
  · intro f
    cases f with
    | none => exact ⟨by simp [timelineGET], fun h => absurd rfl h⟩
    | some rs =>
      cases rs with
      | nil => exact ⟨by simp [timelineGET], fun h => absurd rfl h⟩
      | cons r rest =>
        constructor
        · constructor
          · intro h; simp [timelineGET] at h
          · intro h; exact absurd h (by simp)
        · intro _; rfl

/-- Witness for the amended C5: all classification inputs missing gives the
500 hard failure; a one-row timeline input gives 200. -/
theorem hard_failure_amended_witness :
    classificationGET none none none none none none = { status := 500, success := false } ∧
    timelineGET (some [[("Current Owner", "Acme"), ("2012", "3")]]) =
      { status := 200, success := true } := by
  refine ⟨(hard_failure_amended.1 none none none none none none).1.mpr
      ⟨rfl, rfl, rfl, rfl, rfl, rfl⟩,
    (hard_failure_amended.2.2.2 (some [[("Current Owner", "Acme"), ("2012", "3")]])).2
      (by decide)⟩

/-! ## Claim C2: wide-to-long conversion filters -/

/-- Claim C2: `convertToLongFormat` never emits a data point whose owner
normalizes (trim + lower-case) to the empty string, `none`, `null` or
`unknown`, never emits a non-positive count, and every emitted year is the
parse of one of the given year columns. -/
theorem convertToLongFormat_filters (records : List Row) (years : List String)
    (ownerKey : String) :
    ∀ item ∈ convertToLongFormat records years ownerKey,
      (¬ lowerStr (trimStr item.owner) = "" ∧
       ¬ lowerStr (trimStr item.owner) = "none" ∧
       ¬ lowerStr (trimStr item.owner) = "null" ∧
       ¬ lowerStr (trimStr item.owner) = "unknown") ∧
      0 < item.count ∧
      ∃ ys ∈ years, jsParseInt ys = some item.year := by
  intro item hitem
  rcases List.mem_flatMap.mp hitem with ⟨row, _, hrow⟩
  cases hoc : ownerCell row ownerKey with
  | none => simp only [hoc] at hrow; simp at hrow
  | some owner =>
    simp only [hoc] at hrow
    cases hval : isValidOwnerName owner with
    | false => simp only [hval] at hrow; simp at hrow
    | true =>
      simp only [hval, if_true] at hrow
      rcases List.mem_filterMap.mp hrow with ⟨ys, hys, hf⟩
      cases hcount : jsParseInt ((jsOr (lookup row ys) (some "0")).getD "0") with
      | none => simp only [hcount] at hf; simp at hf
      | some count =>
        cases hyear : jsParseInt ys with
        | none => simp only [hcount, hyear] at hf; simp at hf
        | some year =>
          simp only [hcount, hyear] at hf
          rw [Option.ite_none_right_eq_some, Option.some.injEq] at hf
          rcases hf with ⟨hpos, heq⟩
          rw [← heq]
          unfold isValidOwnerName at hval
          by_cases hemp : (owner == "") = true
          · rw [if_pos hemp] at hval; exact absurd hval (by simp)
          · rw [if_neg hemp] at hval
            simp only [Bool.and_eq_true, Bool.not_eq_eq_eq_not, Bool.not_true,
              beq_eq_false_iff_ne] at hval
            exact ⟨⟨hval.1.1.1, hval.1.1.2, hval.1.2, hval.2⟩, hpos,
              ⟨ys, hys, hyear⟩⟩

/-- Witness for C2 at a concrete emitted data point. -/
theorem convertToLongFormat_filters_witness :
    ({ owner := "Acme", year := 2012, count := 3 } : LongFormatData) ∈
      convertToLongFormat tlRows ["2012"] "Current Owner" ∧
    (0 < (3 : Int) ∧ ∃ ys ∈ ["2012"], jsParseInt ys = some 2012) := by
  have hm : ({ owner := "Acme", year := 2012, count := 3 } : LongFormatData) ∈
      convertToLongFormat tlRows ["2012"] "Current Owner" := by decide
  exact ⟨hm, (convertToLongFormat_filters tlRows ["2012"] "Current Owner" _ hm).2⟩

/-! ## Claim C4: the country aggregation preserves the total sum -/

theorem splitFold_sum (codeKey totalKey : String) (records : List Row) :
    ∀ acc : List (CountryInfo × Int) × List SpecialRegionData,
      (∀ row ∈ records, ¬ ((lookup row codeKey).map trimStr).getD "" = "") →
      ((records.foldl (splitStep codeKey totalKey) acc).1.map (fun p => p.2)).sum +
        ((records.foldl (splitStep codeKey totalKey) acc).2.map (fun s => s.total)).sum =
      (acc.1.map (fun p => p.2)).sum + (acc.2.map (fun s => s.total)).sum +
        (records.map (fun row => parseTotal (lookup row totalKey))).sum := by
  induction records with
  | nil => intro acc _; simp
  | cons row rest ih =>
    intro acc hcode
    have hc := hcode row (List.mem_cons_self row rest)
    have hstep : ((splitStep codeKey totalKey acc row).1.map (fun p => p.2)).sum +
        ((splitStep codeKey totalKey acc row).2.map (fun s => s.total)).sum =
        (acc.1.map (fun p => p.2)).sum + (acc.2.map (fun s => s.total)).sum +
          parseTotal (lookup row totalKey) := by
      cases hlk : lookup row codeKey with
      | none => rw [hlk] at hc; simp at hc
      | some c =>
        rw [hlk] at hc
        simp only [Option.map_some', Option.getD_some] at hc
        have hcb : (trimStr c == "") = false := beq_eq_false_iff_ne.mpr hc
        unfold splitStep
        simp only [hlk, Option.map_some', hcb, Bool.false_eq_true, if_false]
        cases hsp : isSpecialRegion (trimStr c) with
        | true =>
          simp only [hsp, if_true, List.map_append, List.sum_append]
          simp [add_assoc]
        | false =>
          simp only [hsp, Bool.false_eq_true, if_false, List.map_append, List.sum_append]
          simp only [List.map_cons, List.map_nil, List.sum_cons, List.sum_nil]
          ring
    rw [List.foldl_cons, List.map_cons, List.sum_cons]
    rw [ih (splitStep codeKey totalKey acc row)
      (fun r hr => hcode r (List.mem_cons_of_mem row hr))]
    rw [hstep]
    ring

/-- Claim C4: for rows that all carry a present, non-empty country code (and
a numeric total for the ISO-3 route), the sum of the `total` fields over all
produced records equals the sum of the parsed `Total` column over the input
rows — for the ISO-3 route over its country records, and for the
special-region-splitting route over its country map records plus its special
regions. -/
theorem country_totals_preserved (records : List Row) (field totalKey : String)
    (hcode : ∀ row ∈ records, ¬ ((lookup row field).map trimStr).getD "" = "")
    (hnum : ∀ row ∈ records, (totalParsed row).isSome = true) :
    ((processCountryData records field).map (fun r => r.total)).sum =
      (records.map (fun row => (totalParsed row).getD 0)).sum ∧
    ((processCountryData4 records field totalKey).dataset.map.map (fun r => r.total)).sum +
        ((processCountryData4 records field totalKey).specialRegions.map
          (fun r => r.total)).sum =
      (records.map (fun row => parseTotal (lookup row totalKey))).sum := by
  constructor
  · induction records with
    | nil => rfl
    | cons row rest ih =>
      have hc := hcode row (List.mem_cons_self row rest)
      have hn := hnum row (List.mem_cons_self row rest)
      cases hlk : lookup row field with
      | none => rw [hlk] at hc; simp at hc
      | some c =>
        rw [hlk] at hc
        simp only [Option.map_some', Option.getD_some] at hc
        cases htot : totalParsed row with
        | none => rw [htot] at hn; simp at hn
        | some t =>
          have hcb : (trimStr c == "") = false := beq_eq_false_iff_ne.mpr hc
          simp only [processCountryData, List.filterMap_cons, hlk, Option.map_some',
            hcb, Bool.false_eq_true, if_false, htot, List.map_cons, List.sum_cons,
            Option.getD_some]
          have ih2 := ih (fun r hr => hcode r (List.mem_cons_of_mem row hr))
            (fun r hr => hnum r (List.mem_cons_of_mem row hr))
          simp only [processCountryData] at ih2
          rw [ih2]
  · have hs := splitFold_sum field totalKey records ([], []) hcode
    simp only [List.map_nil, List.sum_nil, zero_add] at hs
    unfold processCountryData4
    simp only []
    have hmap : ((splitCountryRows records field totalKey).1.map
        (fun p => ({ country := p.1.name, code := p.1.iso3, total := p.2 } : WorldMapData))).map
          (fun r => r.total) =
        (splitCountryRows records field totalKey).1.map (fun p => p.2) := by
      rw [List.map_map]; rfl
    have hperm : ((sortDescBy (fun s => s.total)
        (splitCountryRows records field totalKey).2).map (fun r => r.total)).sum =
        ((splitCountryRows records field totalKey).2.map (fun r => r.total)).sum :=
      ((sortDescBy_perm (fun s : SpecialRegionData => s.total)
        (splitCountryRows records field totalKey).2).map (fun r => r.total)).sum_eq
    rw [hmap, hperm]
    exact hs

/-- Witness for C4 at the two-row geography scenario. -/
theorem country_totals_preserved_witness :
    ((processCountryData geoScenarioRows "All Family Country").map
        (fun r => r.total)).sum =
      (geoScenarioRows.map (fun row => (totalParsed row).getD 0)).sum :=
  (country_totals_preserved geoScenarioRows "All Family Country" "Total"
    (by decide) (by decide)).1

/-! ## Claim C7: non-negativity of produced totals -/

/-- Claim C7 is falsified by negative numerals in the CSV: the owner
aggregation copies `-3` into a classification cell, and the geographic route
accepts the country total `-7`. -/
theorem totals_nonneg_cex :
    processOwnerClassification negTotalsRows 15 5 =
      [[("currentOwner", JVal.str "A"), ("total", JVal.num 5), ("C", JVal.num (-3))]] ∧
    processCountryData [[("All Family Country", "NO"), ("Total", "-7")]]
        "All Family Country" =
      [{ countryCode := "NO", countryName := "Norway", iso3 := some "NOR", total := -7 }] ∧
    (-3 : Int) < 0 ∧ (-7 : Int) < 0 := by
  refine ⟨by decide, by decide, by decide, by decide⟩

theorem parseNumber_lookup_nonneg (row : Row)
    (h : ∀ p ∈ row, 0 ≤ parseNumber (some p.2)) (k : String) :
    0 ≤ parseNumber (lookup row k) := by
  cases hlk : lookup row k with
  | none => simp [parseNumber]
  | some v =>
    unfold lookup at hlk
    cases hf : row.find? (fun p => p.1 == k) with
    | none => rw [hf] at hlk; simp at hlk
    | some p =>
      rw [hf] at hlk
      simp only [Option.map_some', Option.some.injEq] at hlk
      rw [← hlk]
      exact h p (List.mem_of_find?_eq_some hf)

theorem parseNumber_lookupKeyAt_nonneg (row : Row)
    (h : ∀ p ∈ row, 0 ≤ parseNumber (some p.2)) (keys : List String) (i : Nat) :
    0 ≤ parseNumber (lookupKeyAt row keys i) := by
  unfold lookupKeyAt
  cases keys[i]? with
  | none => simp [parseNumber]
  | some k => exact parseNumber_lookup_nonneg row h k

theorem numsOK_assocSet (obj : Obj) (k : String) (m : Int) (hobj : numsOK obj)
    (hm : 0 ≤ m) : numsOK (assocSet obj k (JVal.num m)) := by
  intro p hp n hn
  rcases mem_assocSet obj k (JVal.num m) p hp with hmem | hpe
  · exact hobj p hmem n hn
  · rw [hpe] at hn
    have := JVal.num.inj hn
    omega

theorem numsOK_buildOwnerObj (keys topCls : List String) (row : Row)
    (h : ∀ p ∈ row, 0 ≤ parseNumber (some p.2)) :
    numsOK (buildOwnerObj keys topCls row) := by
  unfold buildOwnerObj
  have hbase : numsOK
      [("currentOwner", JVal.str (cleanOwnerName (lookupKeyAt row keys 0))),
       ("total", JVal.num (parseNumber (lookupKeyAt row keys 1)))] := by
    intro p hp n hn
    rcases List.mem_cons.mp hp with h1 | hp2
    · rw [h1] at hn; exact absurd hn (by simp)
    · rcases List.mem_cons.mp hp2 with h2 | hp3
      · rw [h2] at hn
        have := JVal.num.inj hn
        have h0 := parseNumber_lookupKeyAt_nonneg row h keys 1
        omega
      · exact absurd hp3 (by simp)
  generalize hb : [("currentOwner", JVal.str (cleanOwnerName (lookupKeyAt row keys 0))),
       ("total", JVal.num (parseNumber (lookupKeyAt row keys 1)))] = base at hbase ⊢
  clear hb
  induction topCls generalizing base with
  | nil => exact hbase
  | cons k ks ih =>
    rw [List.foldl_cons]
    apply ih
    dsimp only
    by_cases hck : (cleanClassificationName k == "") = true
    · rw [if_pos hck]; exact hbase
    · rw [if_neg hck]
      exact numsOK_assocSet base _ _ hbase (parseNumber_lookup_nonneg row h _)

theorem numsOK_buildYearObj (row : Row)
    (h : ∀ p ∈ row, 0 ≤ parseNumber (some p.2))
    (obj : Obj) (hobj : buildYearObj row = some obj) : numsOK obj := by
  simp only [buildYearObj] at hobj
  split at hobj
  · exact absurd hobj (by simp)
  · rename_i hyr
    have hy : (2010 : Int) ≤ parseNumber (lookupKeyAt row (row.map (fun p => p.1)) 0) := by
      omega
    rw [Option.some.injEq] at hobj
    rw [← hobj]
    have hbase : numsOK [("year", JVal.num (parseNumber (lookupKeyAt row (row.map (fun p => p.1)) 0)))] := by
      intro p hp n hn
      rcases List.mem_cons.mp hp with h1 | hp2
      · rw [h1] at hn
        have := JVal.num.inj hn
        omega
      · exact absurd hp2 (by simp)
    generalize hb : [("year", JVal.num (parseNumber (lookupKeyAt row (row.map (fun p => p.1)) 0)))] = base at hbase ⊢
    clear hb
    generalize ((row.map (fun p => p.1)).drop 1) = ks
    induction ks generalizing base with
    | nil => exact hbase
    | cons k ks2 ih =>
      rw [List.foldl_cons]
      apply ih
      dsimp only
      by_cases hck : (cleanClassificationName k == "") = true
      · rw [if_pos hck]; exact hbase
      · rw [if_neg hck]
        exact numsOK_assocSet base _ _ hbase (parseNumber_lookup_nonneg row h _)

/-- Claim C7, amended: all produced totals are integers; the totals of the
full-classification and owner rows are strictly positive unconditionally,
and classification cells, year-object values and country totals are
non-negative whenever the corresponding input fields do not parse to
negative numbers. -/
theorem totals_nonneg_amended :
    (∀ records limit, ∀ item ∈ processFullClassification records limit,
      0 < item.total) ∧
    (∀ records oL cL, ∀ obj ∈ processOwnerClassification records oL cL,
      ∃ n : Int, objGet obj "total" = some (JVal.num n) ∧ 0 < n) ∧
    (∀ records oL cL, (∀ row ∈ records, ∀ p ∈ row, 0 ≤ parseNumber (some p.2)) →
      ∀ obj ∈ processOwnerClassification records oL cL, numsOK obj) ∧
    (∀ records, (∀ row ∈ records, ∀ p ∈ row, 0 ≤ parseNumber (some p.2)) →
      ∀ obj ∈ processYearClassification records, numsOK obj) ∧
    (∀ records field, (∀ row ∈ records, ∀ t : Int, totalParsed row = some t → 0 ≤ t) →
      ∀ r ∈ processCountryData records field, 0 ≤ r.total) := by
  refine ⟨?_, ?_, ?_, ?_, ?_⟩
  · intro records limit item hitem
    have hp := (List.mem_filter.mp hitem).2
    rw [Bool.and_eq_true] at hp
    exact of_decide_eq_true hp.2
  · intro records oL cL obj hobj
    unfold processOwnerClassification at hobj
    split at hobj
    · exact absurd hobj (by simp)
    · split at hobj
      · exact absurd hobj (by simp)
      · have hk := (List.mem_filter.mp hobj).2
        unfold keepOwnerObj at hk
        rw [Bool.and_eq_true] at hk
        have hk2 := hk.2
        cases hg : objGet obj "total" with
        | none => rw [hg] at hk2; simp at hk2
        | some v =>
          rw [hg] at hk2
          cases v with
          | str s => simp [jvalPos] at hk2
          | num n =>
            refine ⟨n, rfl, ?_⟩
            simpa [jvalPos] using hk2
  · intro records oL cL hval obj hobj
    unfold processOwnerClassification at hobj
    split at hobj
    · exact absurd hobj (by simp)
    · split at hobj
      · exact absurd hobj (by simp)
      · rcases List.mem_filter.mp hobj with ⟨hmem, _⟩
        rcases List.mem_map.mp hmem with ⟨row2, hrow2, hbuild⟩
        have hrm : row2 ∈ records :=
          List.mem_of_mem_filter (List.mem_of_mem_take hrow2)
        rw [← hbuild]
        exact numsOK_buildOwnerObj _ _ row2 (hval row2 hrm)
  · intro records hval obj hobj
    unfold processYearClassification at hobj
    split at hobj
    · exact absurd hobj (by simp)
    · rw [mem_sortAscBy] at hobj
      rcases List.mem_filterMap.mp hobj with ⟨row2, hrow2, hb⟩
      exact numsOK_buildYearObj row2 (hval row2 hrow2) obj hb
  · intro records field hval r hr
    rcases List.mem_filterMap.mp hr with ⟨row2, hrow2, hrow⟩
    cases hlk : (lookup row2 field).map trimStr with
    | none => simp only [hlk] at hrow; exact absurd hrow (by simp)
    | some code =>
      simp only [hlk] at hrow
      by_cases hcode : (code == "") = true
      · rw [if_pos hcode] at hrow; exact absurd hrow (by simp)
      · rw [if_neg hcode] at hrow
        cases htot : totalParsed row2 with
        | none => rw [htot] at hrow; exact absurd hrow (by simp)
        | some t =>
          rw [htot] at hrow
          rw [Option.some.injEq] at hrow
          have ht := hval row2 hrow2 t htot
          rw [← hrow]
          exact ht

/-- Witness for the amended C7 at a concrete input. -/
theorem totals_nonneg_amended_witness :
    (∀ row ∈ posRows, ∀ p ∈ row, 0 ≤ parseNumber (some p.2)) ∧
    (∀ obj ∈ processOwnerClassification posRows 15 5, numsOK obj) ∧
    (0 : Int) < 5 :=
  ⟨by decide, totals_nonneg_amended.2.2.1 posRows 15 5 (by decide), by decide⟩

/-! ## Claim C1: owner-classification truncation and ranking -/

/-- Claim C1 is falsified on rows not already sorted by total: the code
slices the first 15 valid rows in input order and never re-sorts, so the
output totals `[1, 5]` are not ranked descending. -/
theorem ownerClassification_ranking_cex :
    (processOwnerClassification unsortedOwnerRows 15 5).map objTotalInt = [1, 5] ∧
    ¬ ((processOwnerClassification unsortedOwnerRows 15 5).Pairwise
        (fun o1 o2 => objTotalInt o2 ≤ objTotalInt o1)) := by
  exact ⟨by decide, by decide⟩

theorem extra_assocSet (obj : Obj) (k : String) (v : JVal) :
    (((assocSet obj k v).map (fun p => p.1)).filter notBaseKey).length ≤
      ((obj.map (fun p => p.1)).filter notBaseKey).length + 1 := by
  by_cases h : (obj.any (fun p => p.1 == k)) = true
  · rw [keys_assocSet_overwrite obj k v h]
    omega
  · unfold assocSet
    rw [if_neg h, List.map_append, List.filter_append, List.length_append]
    have h1 : ((([(k, v)] : Obj).map (fun p => p.1)).filter notBaseKey).length ≤ 1 := by
      simp only [List.map_cons, List.map_nil]
      cases hnb : notBaseKey k <;> simp [List.filter, hnb]
    omega

theorem extra_classFold (row : Row) (l : List String) :
    ∀ base : Obj,
      (((l.foldl (fun obj classKey =>
          let cleanKey := cleanClassificationName classKey
          if cleanKey == "" then obj
          else assocSet obj cleanKey (JVal.num (parseNumber (lookup row classKey))))
        base).map (fun p => p.1)).filter notBaseKey).length ≤
      ((base.map (fun p => p.1)).filter notBaseKey).length + l.length := by
  induction l with
  | nil => intro base; simp
  | cons k ks ih =>
    intro base
    rw [List.foldl_cons]
    refine le_trans (ih _) ?_
    dsimp only
    by_cases hck : (cleanClassificationName k == "") = true
    · rw [if_pos hck]
      simp only [List.length_cons]
      omega
    · rw [if_neg hck]
      have := extra_assocSet base (cleanClassificationName k)
        (JVal.num (parseNumber (lookup row k)))
      simp only [List.length_cons]
      omega

theorem extra_buildOwnerObj (keys topCls : List String) (row : Row) :
    (((buildOwnerObj keys topCls row).map (fun p => p.1)).filter notBaseKey).length ≤
      topCls.length := by
  unfold buildOwnerObj
  refine le_trans (extra_classFold row topCls _) ?_
  have hbase : ((([("currentOwner", JVal.str (cleanOwnerName (lookupKeyAt row keys 0))),
      ("total", JVal.num (parseNumber (lookupKeyAt row keys 1)))] : Obj).map
        (fun p => p.1)).filter notBaseKey).length = 0 := rfl
  omega

theorem objTotalInt_buildOwnerObj (keys topCls : List String) (row : Row)
    (h : ∀ k ∈ topCls, ¬ cleanClassificationName k = "total") :
    objTotalInt (buildOwnerObj keys topCls row) =
      parseNumber (lookupKeyAt row keys 1) := by
  unfold buildOwnerObj
  have hfold : ∀ (l : List String) (obj : Obj),
      (∀ k ∈ l, ¬ cleanClassificationName k = "total") →
      objGet (l.foldl (fun obj classKey =>
          let cleanKey := cleanClassificationName classKey
          if cleanKey == "" then obj
          else assocSet obj cleanKey (JVal.num (parseNumber (lookup row classKey))))
        obj) "total" = objGet obj "total" := by
    intro l
    induction l with
    | nil => intro obj _; rfl
    | cons k ks ih =>
      intro obj hl
      rw [List.foldl_cons]
      rw [ih _ (fun k2 hk2 => hl k2 (List.mem_cons_of_mem _ hk2))]
      dsimp only
      by_cases hck : (cleanClassificationName k == "") = true
      · rw [if_pos hck]
      · rw [if_neg hck]
        unfold objGet
        rw [find?_assocSet_ne _ _ _ _ (hl k (List.mem_cons_self _ _))]
  rw [objTotalInt, hfold topCls _ h]
  rfl

/-- Claim C1, amended: the aggregation always returns at most 15 owner rows
carrying at most 5 classification columns besides `currentOwner` and
`total`, and the selected columns dominate every unselected column in
column sum; however the owner rows are emitted in input order — they are
ranked by descending total only when the valid input rows already are (and
no selected column overwrites the `total` property). -/
theorem ownerClassification_bounds_amended (records : List Row) :
    (processOwnerClassification records 15 5).length ≤ 15 ∧
    (∀ obj ∈ processOwnerClassification records 15 5,
      ((obj.map (fun p => p.1)).filter notBaseKey).length ≤ 5) ∧
    (∀ p ∈ (sortDescBy (fun q => q.2) (ownerClassPairs records)).take 5,
      ∀ q ∈ ownerClassPairs records,
        ¬ q.1 ∈ topClassificationKeys records 5 → q.2 ≤ p.2) ∧
    ((∀ k ∈ topClassificationKeys records 5, ¬ cleanClassificationName k = "total") →
      (validOwnerRecords records).Pairwise (fun r1 r2 =>
        parseNumber (lookupKeyAt r2 (ownerKeysOf records) 1) ≤
        parseNumber (lookupKeyAt r1 (ownerKeysOf records) 1)) →
      (processOwnerClassification records 15 5).Pairwise
        (fun o1 o2 => objTotalInt o2 ≤ objTotalInt o1)) := by
  refine ⟨?_, ?_, ?_, ?_⟩
  · unfold processOwnerClassification
    split
    · simp
    · split
      · simp
      · refine le_trans (List.length_filter_le _ _) ?_
        rw [List.length_map, List.length_take]
        exact min_le_left _ _
  · intro obj hobj
    unfold processOwnerClassification at hobj
    split at hobj
    · exact absurd hobj (by simp)
    · split at hobj
      · exact absurd hobj (by simp)
      · rcases List.mem_filter.mp hobj with ⟨hmem, _⟩
        rcases List.mem_map.mp hmem with ⟨row2, _, hbuild⟩
        rw [← hbuild]
        refine le_trans (extra_buildOwnerObj _ _ row2) ?_
        unfold topClassificationKeys
        rw [List.length_map, List.length_take]
        exact min_le_left _ _
  · intro p hp q hq hnot
    have hq2 : q ∈ sortDescBy (fun x => x.2) (ownerClassPairs records) :=
      (mem_sortDescBy _ _ q).mpr hq
    rw [← List.take_append_drop 5 (sortDescBy (fun x => x.2) (ownerClassPairs records))]
      at hq2
    rcases List.mem_append.mp hq2 with hq3 | hq3
    · exact absurd (List.mem_map.mpr ⟨q, hq3, rfl⟩) hnot
    · exact sortDescBy_take_ge _ _ 5 p hp q hq3
  · intro hclean hsorted
    unfold processOwnerClassification
    split
    · exact List.Pairwise.nil
    · split
      · exact List.Pairwise.nil
      · have h2 := hsorted.sublist (List.take_sublist 15 (validOwnerRecords records))
        have h3 : (((validOwnerRecords records).take 15).map
            (buildOwnerObj (ownerKeysOf records) (topClassificationKeys records 5))).Pairwise
            (fun o1 o2 => objTotalInt o2 ≤ objTotalInt o1) := by
          refine h2.map _ ?_
          intro a b hab
          rw [objTotalInt_buildOwnerObj _ _ _ hclean,
            objTotalInt_buildOwnerObj _ _ _ hclean]
          exact hab
        exact h3.sublist (List.filter_sublist _)

/-- Witness for the amended C1 on a CSV whose valid rows are sorted
descending but whose leading repeated-header row is not. -/
theorem ownerClassification_bounds_amended_witness :
    (processOwnerClassification headerThenSortedRows 15 5).length ≤ 15 ∧
    (processOwnerClassification headerThenSortedRows 15 5).Pairwise
      (fun o1 o2 => objTotalInt o2 ≤ objTotalInt o1) :=
  ⟨(ownerClassification_bounds_amended headerThenSortedRows).1,
   (ownerClassification_bounds_amended headerThenSortedRows).2.2.2 (by decide) (by decide)⟩

/-! ## Claim C10: consistency of the timeline summary statistics -/

/-- Claim C10 is falsified on a long-format list with a non-positive count:
the peak accumulator starts at 0 and only moves on strictly larger counts,
so `peakCount` stays 0 while the maximum per-year total is `-1`. -/
theorem summaryStats_peak_cex :
    (calculateYearTotals negLong).map (fun yt => yt.total) = [-1] ∧
    (calculateSummaryStats negLong).peakCount = 0 ∧
    ¬ ((0 : Int) = -1) := by
  exact ⟨by decide, by decide, by decide⟩

theorem foldl_add_counts (l : List LongFormatData) :
    ∀ a : Int, l.foldl (fun s item => s + item.count) a =
      a + (l.map (fun i => i.count)).sum := by
  induction l with
  | nil => intro a; simp
  | cons x xs ih =>
    intro a
    rw [List.foldl_cons, ih, List.map_cons, List.sum_cons]
    ring

theorem mapAdd_overwrite_sum {κ : Type} [BEq κ] [LawfulBEq κ] (k : κ) (v : Int) :
    ∀ m : List (κ × Int), (m.map (fun p => p.1)).Nodup →
      (m.any (fun p => p.1 == k)) = true →
      ((m.map (fun p => if p.1 == k then (p.1, p.2 + v) else p)).map
        (fun p => p.2)).sum = (m.map (fun p => p.2)).sum + v := by
  intro m
  induction m with
  | nil => intro _ h; simp at h
  | cons p rest ih =>
    intro hnd hany
    rw [List.map_cons, List.nodup_cons] at hnd
    by_cases hk : (p.1 == k) = true
    · rw [List.map_cons, if_pos hk]
      have hid : rest.map (fun q => if q.1 == k then (q.1, q.2 + v) else q) = rest := by
        have h1 : ∀ q ∈ rest, (if q.1 == k then (q.1, q.2 + v) else q) = id q := by
          intro q hq
          have hqk : ¬ (q.1 == k) = true := by
            intro hqk
            apply hnd.1
            rw [beq_iff_eq] at hk hqk
            rw [hk, ← hqk]
            exact List.mem_map.mpr ⟨q, hq, rfl⟩
          rw [if_neg hqk]
          rfl
        rw [List.map_congr_left h1, List.map_id]
      rw [hid, List.map_cons, List.sum_cons, List.map_cons, List.sum_cons]
      ring
    · rw [List.map_cons, if_neg hk]
      have hk2 : (p.1 == k) = false := by
        rw [Bool.not_eq_true] at hk
        exact hk
      rw [List.any_cons, hk2, Bool.false_or] at hany
      rw [List.map_cons, List.sum_cons, List.map_cons, List.sum_cons,
        ih hnd.2 hany]
      ring

theorem mapAdd_sum {κ : Type} [BEq κ] [LawfulBEq κ] (m : List (κ × Int)) (k : κ)
    (v : Int) (hnd : (m.map (fun p => p.1)).Nodup) :
    ((mapAdd m k v).map (fun p => p.2)).sum = (m.map (fun p => p.2)).sum + v := by
  unfold mapAdd
  split
  · rename_i hany
    exact mapAdd_overwrite_sum k v m hnd hany
  · rw [List.map_append, List.sum_append]
    simp

theorem mapAdd_keys_nodup {κ : Type} [BEq κ] [LawfulBEq κ] (m : List (κ × Int))
    (k : κ) (v : Int) (h : (m.map (fun p => p.1)).Nodup) :
    ((mapAdd m k v).map (fun p => p.1)).Nodup := by
  unfold mapAdd
  split
  · have hkeys : (m.map (fun p => if p.1 == k then (p.1, p.2 + v) else p)).map
        (fun p => p.1) = m.map (fun p => p.1) := by
      rw [List.map_map]
      refine List.map_congr_left ?_
      intro p _
      by_cases hk : (p.1 == k) = true
      · simp [Function.comp, hk]
      · simp [Function.comp, hk]
    rw [hkeys]
    exact h
  · rename_i hany
    rw [List.map_append, List.nodup_append]
    refine ⟨h, by simp, ?_⟩
    intro a ha hb
    simp only [List.map_cons, List.map_nil, List.mem_cons, List.not_mem_nil,
      or_false] at hb
    apply hany
    rw [List.any_eq_true]
    rcases List.mem_map.mp ha with ⟨q, hq, hqa⟩
    refine ⟨q, hq, ?_⟩
    rw [beq_iff_eq, hqa, hb]

theorem mapAdd_pos {κ : Type} [BEq κ] (m : List (κ × Int)) (k : κ) (v : Int)
    (hm : ∀ p ∈ m, 0 < p.2) (hv : 0 < v) : ∀ p ∈ mapAdd m k v, 0 < p.2 := by
  intro p hp
  unfold mapAdd at hp
  split at hp
  · rcases List.mem_map.mp hp with ⟨q, hq, hpe⟩
    by_cases hk : (q.1 == k) = true
    · rw [if_pos hk] at hpe
      rw [← hpe]
      have := hm q hq
      dsimp only
      omega
    · rw [if_neg hk] at hpe
      rw [← hpe]
      exact hm q hq
  · rcases List.mem_append.mp hp with h1 | h1
    · exact hm p h1
    · have hpe : p = (k, v) := by simpa using h1
      rw [hpe]
      exact hv

theorem mapAdd_ne_nil {κ : Type} [BEq κ] (m : List (κ × Int)) (k : κ) (v : Int) :
    ¬ mapAdd m k v = [] := by
  unfold mapAdd
  split
  · rename_i hany
    cases m with
    | nil => simp at hany
    | cons a rest => simp
  · simp

theorem yearFold_invariants (longData : List LongFormatData) :
    ∀ m : List (Int × Int),
      (∀ item ∈ longData, 0 < item.count) →
      (m.map (fun p => p.1)).Nodup → (∀ p ∈ m, 0 < p.2) →
      (((longData.foldl (fun m item => mapAdd m item.year item.count) m).map
          (fun p => p.1)).Nodup ∧
       (∀ p ∈ longData.foldl (fun m item => mapAdd m item.year item.count) m, 0 < p.2) ∧
       ((longData.foldl (fun m item => mapAdd m item.year item.count) m).map
          (fun p => p.2)).sum =
         (m.map (fun p => p.2)).sum + (longData.map (fun i => i.count)).sum ∧
       ((¬ m = [] ∨ ¬ longData = []) →
         ¬ longData.foldl (fun m item => mapAdd m item.year item.count) m = [])) := by
  induction longData with
  | nil =>
    intro m _ hnd hpos
    refine ⟨hnd, hpos, by simp, ?_⟩
    intro h
    rcases h with h | h
    · exact h
    · exact absurd rfl h
  | cons item rest ih =>
    intro m hcnt hnd hpos
    have hc := hcnt item (List.mem_cons_self item rest)
    have hrest := fun i hi => hcnt i (List.mem_cons_of_mem item hi)
    have ih2 := ih (mapAdd m item.year item.count) hrest
      (mapAdd_keys_nodup m item.year item.count hnd)
      (mapAdd_pos m item.year item.count hpos hc)
    rw [List.foldl_cons]
    refine ⟨ih2.1, ih2.2.1, ?_, ?_⟩
    · rw [ih2.2.2.1, mapAdd_sum m item.year item.count hnd, List.map_cons,
        List.sum_cons]
      ring
    · intro _
      exact ih2.2.2.2 (Or.inl (mapAdd_ne_nil m item.year item.count))

theorem peakFold_ge (entries : List (Int × Int)) :
    ∀ init : Int × Int, init.2 ≤ (peakFold init entries).2 ∧
      ∀ p ∈ entries, p.2 ≤ (peakFold init entries).2 := by
  induction entries with
  | nil => intro init; exact ⟨le_refl _, by simp⟩
  | cons e rest ih =>
    intro init
    unfold peakFold at ih ⊢
    rw [List.foldl_cons]
    have hstep1 : init.2 ≤ (if init.2 < e.2 then (e.1, e.2) else init).2 := by
      split
      · rename_i hsp; exact le_of_lt hsp
      · exact le_refl _
    have hstep2 : e.2 ≤ (if init.2 < e.2 then (e.1, e.2) else init).2 := by
      split
      · exact le_refl _
      · rename_i hsp; omega
    constructor
    · exact le_trans hstep1 (ih _).1
    · intro p hp
      rcases List.mem_cons.mp hp with he | hrest2
      · rw [he]; exact le_trans hstep2 (ih _).1
      · exact (ih _).2 p hrest2

theorem peakFold_mem_or_init (entries : List (Int × Int)) :
    ∀ init, peakFold init entries = init ∨ peakFold init entries ∈ entries := by
  induction entries with
  | nil => intro init; left; rfl
  | cons e rest ih =>
    intro init
    unfold peakFold at ih ⊢
    rw [List.foldl_cons]
    rcases ih (if init.2 < e.2 then (e.1, e.2) else init) with h | h
    · rw [h]
      split
      · right; exact List.mem_cons_self e rest
      · left; rfl
    · right; exact List.mem_cons_of_mem e h

/-- Claim C10, amended: for a non-empty long-format list whose counts are
all positive (which is what `convertToLongFormat` produces),
`summaryStats.totalPatents` equals the sum of `calculateYearTotals`'s
totals, which equals the sum of all counts; `peakCount` is the maximum
per-year total and `peakYear` is a year attaining it. -/
theorem summaryStats_consistent_amended (longData : List LongFormatData)
    (hne : ¬ longData = [])
    (hpos : ∀ item ∈ longData, 0 < item.count) :
    (calculateSummaryStats longData).totalPatents =
      ((calculateYearTotals longData).map (fun yt => yt.total)).sum ∧
    ((calculateYearTotals longData).map (fun yt => yt.total)).sum =
      (longData.map (fun i => i.count)).sum ∧
    (∀ yt ∈ calculateYearTotals longData,
      yt.total ≤ (calculateSummaryStats longData).peakCount) ∧
    (∃ yt ∈ calculateYearTotals longData,
      yt.total = (calculateSummaryStats longData).peakCount ∧
      (calculateSummaryStats longData).peakYear = toString yt.year) := by
  have hinv := yearFold_invariants longData [] hpos (by simp) (by simp)
  have hmne : ¬ buildYearMap longData = [] := hinv.2.2.2 (Or.inr hne)
  have hmsum : ((buildYearMap longData).map (fun p => p.2)).sum =
      (longData.map (fun i => i.count)).sum := by
    have := hinv.2.2.1
    simpa using this
  have hyt : ((calculateYearTotals longData).map (fun yt => yt.total)).sum =
      ((buildYearMap longData).map (fun p => p.2)).sum := by
    have hperm := ((sortAscBy_perm (fun yt : YearTotal => yt.year)
        ((buildYearMap longData).map (fun p => ({ year := p.1, total := p.2 } : YearTotal)))).map
      (fun yt : YearTotal => yt.total)).sum_eq
    unfold calculateYearTotals
    rw [hperm, List.map_map]
    rfl
  have htp : (calculateSummaryStats longData).totalPatents =
      (longData.map (fun i => i.count)).sum := by
    show longData.foldl (fun s item => s + item.count) 0 = _
    rw [foldl_add_counts longData 0]
    ring
  have hpkc : (calculateSummaryStats longData).peakCount =
      (peakFold (jsMinInt (longData.map (fun d => d.year)), 0)
        (buildYearMap longData)).2 := rfl
  have hpky : (calculateSummaryStats longData).peakYear =
      toString (peakFold (jsMinInt (longData.map (fun d => d.year)), 0)
        (buildYearMap longData)).1 := rfl
  refine ⟨by rw [htp, hyt, hmsum], by rw [hyt, hmsum], ?_, ?_⟩
  · intro yt hyt2
    unfold calculateYearTotals at hyt2
    rw [mem_sortAscBy] at hyt2
    rcases List.mem_map.mp hyt2 with ⟨p, hp, hpe⟩
    rw [hpkc, ← hpe]
    exact (peakFold_ge (buildYearMap longData) _).2 p hp
  · have hposm : ∀ p ∈ buildYearMap longData, 0 < p.2 := hinv.2.1
    have hr := peakFold_mem_or_init (buildYearMap longData)
      (jsMinInt (longData.map (fun d => d.year)), 0)
    rcases hr with hr | hr
    · exfalso
      cases hm : buildYearMap longData with
      | nil => exact hmne hm
      | cons p0 rest =>
        have hmem0 : p0 ∈ buildYearMap longData := by
          rw [hm]
          exact List.mem_cons_self p0 rest
        have hp0 : 0 < p0.2 := hposm p0 hmem0
        have hle := (peakFold_ge (buildYearMap longData)
          (jsMinInt (longData.map (fun d => d.year)), 0)).2 p0 hmem0
        rw [hr] at hle
        have hle2 : p0.2 ≤ 0 := hle
        omega
    · refine ⟨⟨(peakFold (jsMinInt (longData.map (fun d => d.year)), 0)
          (buildYearMap longData)).1,
        (peakFold (jsMinInt (longData.map (fun d => d.year)), 0)
          (buildYearMap longData)).2⟩, ?_, by rw [hpkc], by rw [hpky]⟩
      unfold calculateYearTotals
      rw [mem_sortAscBy]
      exact List.mem_map.mpr ⟨peakFold (jsMinInt (longData.map (fun d => d.year)), 0)
        (buildYearMap longData), hr, rfl⟩

/-- Witness for the amended C10 at a concrete input. -/
theorem summaryStats_consistent_amended_witness :
    (¬ wLong = []) ∧
    (calculateSummaryStats wLong).totalPatents =
      ((calculateYearTotals wLong).map (fun yt => yt.total)).sum :=
  ⟨by decide, (summaryStats_consistent_amended wLong (by decide) (by decide)).1⟩

end PatSpec
